import Mathlib

/-!
Verification of the Edge Memory Protocol storage engine (`sdk/src/MemoryStore.ts`,
`sdk/src/lock.ts`, `sdk/src/validation.ts`, `sdk/src/types.ts`).

The TypeScript source is shallowly embedded:
* a log file is a list of lines, each line carrying either the `EdgeMemoryEntry`
  it decodes to (`LogLine.good`) or its raw text when JSON decoding of the line
  fails to produce a value of the entry shape (`LogLine.bad`);
* stateful operations become explicit state passing (the store operations take
  the file and the lock sentinel state and return the new ones);
* JavaScript numbers that the code requires to be integers are modelled as `Int`
  (`validateEntry` rejects non-integers, so fractional values fall under
  `LogLine.bad`); machine-level concerns do not arise at the values involved;
* fallible operations return an error component instead of throwing.
-/

/-- JSON values, used for the opaque `meta` field and for the export round trip.
Numeric leaves are modelled as `Int` (the store itself never computes with
them). -/
inductive JsonVal where
  | null : JsonVal
  | bool (b : Bool) : JsonVal
  | num (n : Int) : JsonVal
  | str (s : String) : JsonVal
  | arr (xs : List JsonVal) : JsonVal
  | obj (fields : List (String × JsonVal)) : JsonVal

/-- Character class `[0-9]` of the validator's regexes. -/
def isDigitCh (c : Char) : Bool := '0' ≤ c && c ≤ '9'

/-- Character class `[a-z]`. -/
def isLowerCh (c : Char) : Bool := 'a' ≤ c && c ≤ 'z'

/-- Character class `[0-9a-f]` under the `/i` flag of `UUID_V4_REGEX`. -/
def isHexCh (c : Char) : Bool :=
  isDigitCh c || ('a' ≤ c && c ≤ 'f') || ('A' ≤ c && c ≤ 'F')

/-- Character class `[a-z0-9:_-]` of `TAG_REGEX` in `validation.ts`. -/
def isTagCh (c : Char) : Bool :=
  isLowerCh c || isDigitCh c || c = ':' || c = '_' || c = '-'

/-- JavaScript `String.prototype.split` with a one-character separator
(`"".split(sep)` is `[""]`, separators at the ends produce empty segments). -/
def jsSplitCh (sep : Char) : List Char → List (List Char)
  | [] => [[]]
  | c :: cs =>
    let r := jsSplitCh sep cs
    if c = sep then [] :: r
    else
      match r with
      | s :: rest => (c :: s) :: rest
      | [] => [[c]]

/-- Decimal digit-string value, `none` unless the string is nonempty and all
digits. Models `Number(...)` on the segments produced by the version regex
(which only lets all-digit segments through). -/
def decDigitsVal (cs : List Char) : Option Nat :=
  if cs ≠ [] && cs.all isDigitCh then
    some (cs.foldl (fun acc c => acc * 10 + (c.toNat - '0'.toNat)) 0)
  else none

/-- Test of `VERSION_REGEX = /^\d+\.\d+$/` from `validation.ts`. -/
def versionRegexTest (s : String) : Bool :=
  match jsSplitCh '.' s.toList with
  | [a, b] => a ≠ [] && a.all isDigitCh && b ≠ [] && b.all isDigitCh
  | _ => false

/-- Test of `UUID_V4_REGEX =
`/^[0-9a-f]\x7b8\x7d-[0-9a-f]\x7b4\x7d-4[0-9a-f]\x7b3\x7d-[89ab][0-9a-f]\x7b3\x7d-[0-9a-f]\x7b12\x7d$/i`
from `validation.ts`: 36 characters, dashes at positions 8/13/18/23, the
version nibble fixed to `4`, the variant nibble in `[89ab]` (case-insensitive),
hex digits elsewhere. -/
def uuidV4RegexTest (s : String) : Bool :=
  let cs := s.toList
  cs.length = 36 && (List.range 36).all fun i =>
    match cs[i]? with
    | none => false
    | some c =>
      if i = 8 || i = 13 || i = 18 || i = 23 then c = '-'
      else if i = 14 then c = '4'
      else if i = 19 then
        c = '8' || c = '9' || c = 'a' || c = 'b' || c = 'A' || c = 'B'
      else isHexCh c

/-- Test of `REVERSE_DOMAIN_REGEX = /^[a-z][a-z0-9]*(?:\.[a-z][a-z0-9]*)+$/`:
at least two dot-separated segments, each a lowercase letter followed by
lowercase alphanumerics. -/
def reverseDomainRegexTest (s : String) : Bool :=
  let segs := jsSplitCh '.' s.toList
  segs.length ≥ 2 && segs.all fun seg =>
    match seg with
    | [] => false
    | c :: rest => isLowerCh c && rest.all (fun d => isLowerCh d || isDigitCh d)

/-- Test of `TAG_REGEX = /^[a-z0-9:_-]+$/`. -/
def tagRegexTest (s : String) : Bool :=
  s.toList ≠ [] && s.toList.all isTagCh

/-- Duplicate check performed in `validateEntry` by comparing the tag array's
length with the size of `new Set(entry.tags)`. -/
def noDupStrings : List String → Bool
  | [] => true
  | x :: xs => !(xs.contains x) && noDupStrings xs

/-- A memory entry (`EdgeMemoryEntry` in `types.ts`): the fields of the wire
schema, with the optional ones as `Option`. -/
structure EdgeMemoryEntry where
  v : String
  id : String
  ts : Int
  src : String
  content : String
  type : Option String := none
  tags : Option (List String) := none
  meta : Option (List (String × JsonVal)) := none
  emb : Option (List Int) := none

/-- Embedding of `validateEntry` from `validation.ts` for values that already
have the entry shape. The shape checks of the original (field type tests and
the closed-schema unknown-field scan) hold by construction of
`EdgeMemoryEntry`; raw JSON lines that fail them are represented as
`LogLine.bad`. The remaining value checks are transcribed: version and id
patterns, non-negative integral timestamp, reverse-domain source, nonempty
content, tag pattern plus uniqueness, and nonempty embedding. -/
def validateEntry (e : EdgeMemoryEntry) : Bool :=
  versionRegexTest e.v &&
  uuidV4RegexTest e.id &&
  (0 ≤ e.ts) &&
  reverseDomainRegexTest e.src &&
  !(e.content == "") &&
  (match e.tags with
   | none => true
   | some l => l.all tagRegexTest && noDupStrings l) &&
  (match e.emb with
   | none => true
   | some l => !(l.isEmpty))

/-- Major component used by `isVersionCompatible`:
`entryVersion.split('.').map(Number)[0]`, i.e. the numeric value of the text
before the first dot (`none` standing for `NaN`). -/
def versionMajor (s : String) : Option Nat :=
  decDigitsVal (s.toList.takeWhile (fun c => c ≠ '.'))

/-- Embedding of `isVersionCompatible` from `validation.ts`: equal major
versions are compatible. `NaN === NaN` is false in JavaScript, so two
unparseable majors are incompatible. -/
def isVersionCompatible (entryVersion supportedVersion : String) : Bool :=
  match versionMajor entryVersion, versionMajor supportedVersion with
  | some a, some b => a = b
  | _, _ => false

/-- The `PROTOCOL_VERSION` constant of `MemoryStore.ts`. -/
def PROTOCOL_VERSION : String := "1.0"

/-- A line of the JSONL log file (`memory.jsonl`), identified by the result of
`JSON.parse` + shape inspection on it: `good e` when the line decodes to a
value of the entry shape, `bad raw` when parsing or shaping fails (empty or
whitespace lines, malformed JSON, objects with missing, mistyped or unknown
fields). `read` treats both failure modes identically: the line is skipped. -/
inductive LogLine where
  | good (e : EdgeMemoryEntry) : LogLine
  | bad (raw : String) : LogLine

/-- The log file as its list of lines. -/
abbrev LogFile := List LogLine

/-- Read filter (`MemoryFilter` in `types.ts`). `since`, `until` and `limit`
are JavaScript numbers, kept as `Int` so that the falsy-zero and negative
cases of the original are representable. -/
structure MemoryFilter where
  since : Option Int := none
  «until» : Option Int := none
  type : Option String := none
  tags : Option (List String) := none
  src : Option String := none
  limit : Option Int := none

/-- Store configuration fields consumed by the modelled operations
(`EdgeMemoryConfig` in `types.ts`): the writing application's identity and the
lock timeout (default 5000 ms). -/
structure EdgeMemoryConfig where
  appId : String
  lockTimeout : Int := 5000

/-- Input of `write` (`CreateMemoryInput` in `types.ts`): the caller-supplied
fields plus an optional timestamp override. -/
structure CreateMemoryInput where
  content : String
  type : Option String := none
  tags : Option (List String) := none
  meta : Option (List (String × JsonVal)) := none
  emb : Option (List Int) := none
  ts : Option Int := none

/-- Patch passed to `update` (`Partial<CreateMemoryInput>`): each field either
absent or supplying a replacement value. -/
structure UpdatePatch where
  content : Option String := none
  type : Option (Option String) := none
  tags : Option (Option (List String)) := none
  meta : Option (Option (List (String × JsonVal))) := none
  emb : Option (Option (List Int)) := none
  ts : Option Int := none

/-- State of the `<logpath>.lock` sentinel: `none` when the file is absent,
`some none` when it exists but `parseInt` of its content is `NaN`,
`some (some t)` when the content parses to the epoch `t`. -/
abbrev LockSt := Option (Option Int)

/-- Filesystem operations the lock manager and the store issue, recorded in
order so that "no I/O happened" is expressible. -/
inductive IoEvent where
  | lockExistsCheck : IoEvent
  | lockRead : IoEvent
  | lockDelete : IoEvent
  | lockWrite : IoEvent
  | logRead : IoEvent
  | logAppend : IoEvent
  | logRewrite : IoEvent

/-- Embedding of `FileLockManager.isLocked` (`lock.ts` lines 89-125) at time
`now`: an absent sentinel is unlocked; a sentinel whose content does not parse
(`isNaN`) or parses to `0` is deleted and reported unlocked; a sentinel older
than `2 × timeout` is stale, deleted and reported unlocked; otherwise the lock
holds. Returns the verdict, the sentinel state after the opportunistic
clean-up, and the file operations performed. -/
def FileLockManager.isLocked (timeout now : Int) (st : LockSt) :
    Bool × LockSt × List IoEvent :=
  match st with
  | none => (false, none, [.lockExistsCheck])
  | some none => (false, none, [.lockExistsCheck, .lockRead, .lockDelete])
  | some (some t) =>
    if t = 0 then (false, none, [.lockExistsCheck, .lockRead, .lockDelete])
    else if now - t > timeout * 2 then
      (false, none, [.lockExistsCheck, .lockRead, .lockDelete])
    else (true, some (some t), [.lockExistsCheck, .lockRead])

/-- Result of an `acquire` run: success (with the sentinel state it installed
and the number of backoff sleeps that preceded it), `LockTimeout`, or
exhaustion of the supplied iteration times (never reached in the theorems
below). -/
inductive AcqResult where
  | acquired (st : LockSt) (sleeps : Nat) : AcqResult
  | timedOut (st : LockSt) (sleeps : Nat) : AcqResult
  | fuelOut (st : LockSt) : AcqResult

/-- Loop body of `FileLockManager.acquire` (`lock.ts` lines 41-75). `times`
lists the value of `Date.now()` at each iteration (time advances during the
backoff sleeps); one iteration checks `isLocked`, creates the sentinel and
returns on success, and otherwise fails once `elapsed > timeout` or sleeps and
retries. The sentinel write of the uncontended single-caller model always
succeeds, so the create-failure catch branch of the source is never taken. -/
def FileLockManager.acquireGo (timeout startTime : Int) (sleeps : Nat) :
    List Int → LockSt → AcqResult × List IoEvent
  | [], st => (.fuelOut st, [])
  | now :: rest, st =>
    match FileLockManager.isLocked timeout now st with
    | (false, _, tr) => (.acquired (some (some now)) sleeps, tr ++ [.lockWrite])
    | (true, st', tr) =>
      if now - startTime > timeout then (.timedOut st' sleeps, tr)
      else
        match FileLockManager.acquireGo timeout startTime (sleeps + 1) rest st' with
        | (r, tr') => (r, tr ++ tr')

/-- Embedding of `FileLockManager.acquire`: `startTime = Date.now()` is the
time of the first iteration. -/
def FileLockManager.acquire (timeout : Int) (times : List Int) (st : LockSt) :
    AcqResult × List IoEvent :=
  match times with
  | [] => (.fuelOut st, [])
  | t0 :: _ => FileLockManager.acquireGo timeout t0 0 times st

/-- Errors surfaced by the store operations: `ValidationError`, the
`LockTimeoutError` of `lock.ts`, the `not found` errors of `update`/`delete`,
and exhaustion of the modelled iteration fuel. -/
inductive MemError where
  | validation : MemError
  | lockTimeout : MemError
  | notFound : MemError
  | outOfFuel : MemError

/-- Sort relation of `read`: the comparator `(a, b) => b.ts - a.ts` orders by
timestamp descending. -/
def tsDesc (a b : EdgeMemoryEntry) : Prop := b.ts ≤ a.ts

instance : DecidableRel tsDesc := fun a b => Int.decLe b.ts a.ts

/-- JavaScript `entries.slice(0, n)`: a nonnegative `n` keeps the first `n`
elements, a negative `n` counts from the end. -/
def jsSlice0 (n : Int) (xs : List EdgeMemoryEntry) : List EdgeMemoryEntry :=
  if n < 0 then xs.take (xs.length - (-n).toNat) else xs.take n.toNat

/-- Per-line recovery step of `read` (`MemoryStore.ts` lines 176-185): a line
is kept only when it parses (`LogLine.good`), passes `validateEntry`, and has
a compatible protocol version. -/
def recoverLine (l : LogLine) : Option EdgeMemoryEntry :=
  match l with
  | .good e =>
    if validateEntry e && isVersionCompatible e.v PROTOCOL_VERSION then some e
    else none
  | .bad _ => none

/-- The validated, version-compatible entries of a log file, in file order. -/
def validEntries (file : LogFile) : List EdgeMemoryEntry :=
  file.filterMap recoverLine

/-- Check `if (filter.since && entry.ts < filter.since) continue` of `read`
(`MemoryStore.ts` line 189): JavaScript truthiness skips the test when
`since` is `0`. -/
def sinceTest (f : MemoryFilter) (e : EdgeMemoryEntry) : Bool :=
  match f.since with
  | none => true
  | some s => if s = 0 then true else !(e.ts < s)

/-- Check `if (filter.until && entry.ts > filter.until) continue`
(`MemoryStore.ts` line 190); skipped when `until` is `0`. -/
def untilTest (f : MemoryFilter) (e : EdgeMemoryEntry) : Bool :=
  match f.«until» with
  | none => true
  | some u => if u = 0 then true else !(e.ts > u)

/-- Check `if (filter.type && entry.type !== filter.type) continue`
(`MemoryStore.ts` line 191); skipped when `type` is the empty string. -/
def typeTest (f : MemoryFilter) (e : EdgeMemoryEntry) : Bool :=
  match f.type with
  | none => true
  | some t => if t = "" then true else e.type == some t

/-- Check `if (filter.src && entry.src !== filter.src) continue`
(`MemoryStore.ts` line 192); skipped when `src` is the empty string. -/
def srcTest (f : MemoryFilter) (e : EdgeMemoryEntry) : Bool :=
  match f.src with
  | none => true
  | some s => if s = "" then true else e.src == s

/-- Check of `filter.tags` (`MemoryStore.ts` lines 193-196): applies only to a
nonempty requested list, and keeps entries having at least one of the
requested tags (`entry.tags?.includes(tag)` is falsy for entries without
tags). -/
def tagsTest (f : MemoryFilter) (e : EdgeMemoryEntry) : Bool :=
  match f.tags with
  | none => true
  | some l =>
    if l.length > 0 then l.any (fun t => (e.tags.getD []).contains t)
    else true

/-- Filter predicate block of `read` (`MemoryStore.ts` lines 188-197): the
conjunction of the five `continue` guards. -/
def passFilter (f : MemoryFilter) (e : EdgeMemoryEntry) : Bool :=
  sinceTest f e && untilTest f e && typeTest f e && srcTest f e && tagsTest f e

/-- Embedding of `EdgeMemoryStore.read` (`MemoryStore.ts` lines 160-215):
parse and validate each line independently, apply the filters during the scan,
sort by timestamp descending, then truncate when `filter.limit` is truthy. -/
def EdgeMemoryStore.read (file : LogFile) (filter : Option MemoryFilter) :
    List EdgeMemoryEntry :=
  let entries := file.filterMap fun l =>
    match recoverLine l with
    | some e =>
      match filter with
      | none => some e
      | some f => if passFilter f e then some e else none
    | none => none
  let sorted := entries.insertionSort tsDesc
  match filter with
  | none => sorted
  | some f =>
    match f.limit with
    | none => sorted
    | some n => if n = 0 then sorted else jsSlice0 n sorted

/-- Entry construction of `write` (`MemoryStore.ts` lines 124-134): protocol
version constant, freshly generated UUID `genId`, `input.ts || Date.now()`
(the override is ignored when falsy), the configured app identity as source,
and the caller's payload fields. -/
def buildEntry (cfg : EdgeMemoryConfig) (genId : String) (now : Int)
    (input : CreateMemoryInput) : EdgeMemoryEntry :=
  { v := PROTOCOL_VERSION
    id := genId
    ts := match input.ts with
      | some t => if t = 0 then now else t
      | none => now
    src := cfg.appId
    content := input.content
    type := input.type
    tags := input.tags
    meta := input.meta
    emb := input.emb }

/-- Outcome of a `write` (or `update`) run: the returned entry or error, the
log file and sentinel state afterwards, and the file operations performed in
order. -/
structure WriteOutcome where
  result : Except MemError EdgeMemoryEntry
  file : LogFile
  lock : LockSt
  events : List IoEvent

/-- Embedding of `EdgeMemoryStore.write` (`MemoryStore.ts` lines 118-155):
build the entry, validate it before any file access, then under the lock
append one serialized line and release. `genId` is the value produced by
`generateUUID()`, `now` the value of `Date.now()` during entry construction,
and `times` the iteration times of the lock-acquisition loop. -/
def EdgeMemoryStore.write (cfg : EdgeMemoryConfig) (genId : String) (now : Int)
    (times : List Int) (input : CreateMemoryInput) (file : LogFile)
    (lockSt : LockSt) : WriteOutcome :=
  let e := buildEntry cfg genId now input
  if validateEntry e = false then
    { result := .error .validation, file := file, lock := lockSt, events := [] }
  else
    match FileLockManager.acquire cfg.lockTimeout times lockSt with
    | (.acquired _ _, tr) =>
      { result := .ok e
        file := file ++ [.good e]
        lock := none
        events := tr ++ [.logAppend, .lockDelete] }
    | (.timedOut st _, tr) =>
      { result := .error .lockTimeout, file := file, lock := st, events := tr }
    | (.fuelOut st, tr) =>
      { result := .error .outOfFuel, file := file, lock := st, events := tr }

/-- Merged input of `update` (`MemoryStore.ts` lines 272-276): the object
spread `{...existing, ...updates, ts: Date.now()}` restricted to the fields
`write` consumes. Patch fields override the existing entry's when present, and
the timestamp is set to `now` last. -/
def mergeForUpdate (existing : EdgeMemoryEntry) (u : UpdatePatch) (now : Int) :
    CreateMemoryInput :=
  { content := u.content.getD existing.content
    type := u.type.getD existing.type
    tags := u.tags.getD existing.tags
    meta := u.meta.getD existing.meta
    emb := u.emb.getD existing.emb
    ts := some now }

/-- Embedding of `EdgeMemoryStore.update` (`MemoryStore.ts` lines 262-280):
read all entries, find the first with the requested id, fail with `NotFound`
when none matches, otherwise call `write` with the merged fields and a fresh
timestamp. -/
def EdgeMemoryStore.update (cfg : EdgeMemoryConfig) (genId : String)
    (now : Int) (times : List Int) (file : LogFile) (lockSt : LockSt)
    (id : String) (u : UpdatePatch) : WriteOutcome :=
  match (EdgeMemoryStore.read file none).find? (fun e => e.id == id) with
  | none =>
    { result := .error .notFound, file := file, lock := lockSt
      events := [.logRead] }
  | some existing =>
    let out := EdgeMemoryStore.write cfg genId now times
      (mergeForUpdate existing u now) file lockSt
    { out with events := .logRead :: out.events }

/-- Embedding of the critical section of `EdgeMemoryStore.delete`
(`MemoryStore.ts` lines 290-307), run under an uncontended lock: read all
entries, filter out those with the matching id, fail with `NotFound` when
nothing matched (leaving the file as it was — the rewrite only happens in the
other branch), otherwise rewrite the whole file with the remainder. -/
def EdgeMemoryStore.delete (file : LogFile) (id : String) :
    LogFile × Option MemError :=
  let entries := EdgeMemoryStore.read file none
  let filtered := entries.filter fun e => !(e.id == id)
  if filtered.length = entries.length then (file, some .notFound)
  else (filtered.map LogLine.good, none)

/-- Embedding of `EdgeMemoryStore.clear` (`MemoryStore.ts` lines 364-366):
the file is truncated to empty. -/
def EdgeMemoryStore.clear : LogFile := []

/-- JSON encoding of an entry, mirroring `JSON.stringify(entry)`: the keys in
object-literal order `v, id, ts, src, content, type, tags, meta, emb`, with
`undefined` optional fields omitted. -/
def encodeEntry (e : EdgeMemoryEntry) : JsonVal :=
  .obj ([("v", .str e.v), ("id", .str e.id), ("ts", .num e.ts),
         ("src", .str e.src), ("content", .str e.content)]
    ++ (match e.type with | some t => [("type", JsonVal.str t)] | none => [])
    ++ (match e.tags with
        | some l => [("tags", JsonVal.arr (l.map JsonVal.str))]
        | none => [])
    ++ (match e.meta with | some m => [("meta", JsonVal.obj m)] | none => [])
    ++ (match e.emb with
        | some l => [("emb", JsonVal.arr (l.map JsonVal.num))]
        | none => []))

/-- Embedding of `EdgeMemoryStore.export` (`MemoryStore.ts` lines 351-354) at
the JSON-value level: `JSON.stringify(entries, null, 2)` of the unfiltered
`read` result is, once parsed back, exactly this array (the pretty-printing
whitespace is invisible at the value level). -/
def EdgeMemoryStore.exportJson (file : LogFile) : JsonVal :=
  .arr ((EdgeMemoryStore.read file none).map encodeEntry)

/-- First-match key lookup in a parsed JSON object, as JavaScript property
access on `JSON.parse` output. -/
def jlookup : List (String × JsonVal) → String → Option JsonVal
  | [], _ => none
  | (k, v) :: rest, key => if k = key then some v else jlookup rest key

/-- Reads a JSON array of strings (the `tags` field of a parsed entry). -/
def decodeStrList : List JsonVal → Option (List String)
  | [] => some []
  | .str s :: rest => (decodeStrList rest).map (s :: ·)
  | _ => none

/-- Reads a JSON array of numbers (the `emb` field of a parsed entry). -/
def decodeNumList : List JsonVal → Option (List Int)
  | [] => some []
  | .num n :: rest => (decodeNumList rest).map (n :: ·)
  | _ => none

/-- Reads an entry back out of a parsed JSON object: each required field must
be present with its wire type, each optional field is `none` when absent. -/
def decodeEntry (j : JsonVal) : Option EdgeMemoryEntry :=
  match j with
  | .obj fields =>
    match jlookup fields "v", jlookup fields "id", jlookup fields "ts",
        jlookup fields "src", jlookup fields "content" with
    | some (.str v), some (.str id), some (.num ts), some (.str src),
        some (.str content) =>
      let typ : Option (Option String) :=
        match jlookup fields "type" with
        | none => some none
        | some (.str t) => some (some t)
        | some _ => none
      let tgs : Option (Option (List String)) :=
        match jlookup fields "tags" with
        | none => some none
        | some (.arr xs) => (decodeStrList xs).map some
        | some _ => none
      let mta : Option (Option (List (String × JsonVal))) :=
        match jlookup fields "meta" with
        | none => some none
        | some (.obj m) => some (some m)
        | some _ => none
      let embv : Option (Option (List Int)) :=
        match jlookup fields "emb" with
        | none => some none
        | some (.arr xs) => (decodeNumList xs).map some
        | some _ => none
      match typ, tgs, mta, embv with
      | some t, some tg, some m, some em =>
        some { v := v, id := id, ts := ts, src := src, content := content
               type := t, tags := tg, meta := m, emb := em }
      | _, _, _, _ => none
    | _, _, _, _, _ => none
  | _ => none

/-- Parses each element of a JSON array as an entry, failing if any element
fails. -/
def decodeEntryList : List JsonVal → Option (List EdgeMemoryEntry)
  | [] => some []
  | x :: rest =>
    match decodeEntry x, decodeEntryList rest with
    | some e, some es => some (e :: es)
    | _, _ => none

/-- Parses an exported JSON document: a top-level array, each element an
entry. -/
def decodeEntries (j : JsonVal) : Option (List EdgeMemoryEntry) :=
  match j with
  | .arr xs => decodeEntryList xs
  | _ => none

/-- Escape of one character inside a JSON string literal, as performed by
`JSON.stringify` (quote, backslash and the common control characters; other
characters pass through unchanged). -/
def escapeJsonChar (c : Char) : List Char :=
  if c = '"' then ['\\', '"']
  else if c = '\\' then ['\\', '\\']
  else if c = '\n' then ['\\', 'n']
  else if c = '\r' then ['\\', 'r']
  else if c = '\t' then ['\\', 't']
  else [c]

/-- A JSON string literal with its delimiting quotes. -/
def quoteJsonString (s : String) : String :=
  ⟨'"' :: s.toList.foldr (fun c acc => escapeJsonChar c ++ acc) ['"']⟩

mutual

/-- Compact rendering of a JSON value, as `JSON.stringify` produces for a
serialized log line. -/
def renderJson : JsonVal → String
  | .null => "null"
  | .bool true => "true"
  | .bool false => "false"
  | .num n => toString n
  | .str s => quoteJsonString s
  | .arr xs => "[" ++ renderJsonArr xs ++ "]"
  | .obj fs => "\x7b" ++ renderJsonObj fs ++ "\x7d"

/-- Comma-separated rendering of JSON array elements. -/
def renderJsonArr : List JsonVal → String
  | [] => ""
  | [x] => renderJson x
  | x :: y :: rest => renderJson x ++ "," ++ renderJsonArr (y :: rest)

/-- Comma-separated rendering of JSON object members. -/
def renderJsonObj : List (String × JsonVal) → String
  | [] => ""
  | [(k, v)] => quoteJsonString k ++ ":" ++ renderJson v
  | (k, v) :: f :: rest =>
    quoteJsonString k ++ ":" ++ renderJson v ++ "," ++ renderJsonObj (f :: rest)

end

/-- The serialized form of one entry: the log line text `write` appends (minus
its trailing newline), `JSON.stringify(entry)`. -/
def entryLine (e : EdgeMemoryEntry) : String :=
  renderJson (encodeEntry e)

/-- JavaScript `Array.prototype.join` with a separator. -/
def jsJoinSep (sep : String) : List String → String
  | [] => ""
  | [x] => x
  | x :: y :: rest => x ++ sep ++ jsJoinSep sep (y :: rest)

/-- Canonical text of a log holding exactly the entries `es`: one serialized
entry per line, each line terminated by a newline, nothing else. -/
def renderEntries : List EdgeMemoryEntry → String
  | [] => ""
  | e :: rest => entryLine e ++ "\n" ++ renderEntries rest

/-- The log-file format invariant (spec section 6): the file is empty or
consists of serialized entries one per line with a single final newline after
the last entry and no other trailing data. -/
def WellFormedLog (s : String) : Prop :=
  ∃ es : List EdgeMemoryEntry, s = renderEntries es

/-- String-level effect of `write`'s append (`MemoryStore.ts` lines 140-143):
`JSON.stringify(entry) + '\n'` appended to the current content. -/
def writeAppendStr (s : String) (e : EdgeMemoryEntry) : String :=
  s ++ entryLine e ++ "\n"

/-- String-level content written by `delete`'s rewrite (`MemoryStore.ts` lines
301-306): `filtered.map(JSON.stringify).join('\n')` plus a trailing newline
when anything remains. -/
def deleteContentStr (filtered : List EdgeMemoryEntry) : String :=
  jsJoinSep "\n" (filtered.map entryLine) ++
    (if filtered.length > 0 then "\n" else "")

/-- String-level content written by `clear` (`MemoryStore.ts` line 365). -/
def clearContentStr : String := ""

/-- Control state of one writer executing the file-lock protocol of `write`
(`lock.ts` `acquire`/`release` around the append of `MemoryStore.ts` lines
140-143), at the granularity of the adapter's atomic filesystem primitives.
The Expo adapter has no native append: `appendFile` is `readFile` followed by
`writeFile` of the concatenation (`platform/expo.ts`), so the append occupies
two steps with the read result held in `saved`. Program counter:
0 = about to run `isLocked` on the sentinel; 1 = `isLocked` returned false,
about to create the sentinel with a plain (overwriting) write; 2 = about to
read the log; 3 = about to write the log as `saved + line`; 4 = about to
delete the sentinel (`release`); 5 = returned successfully. -/
structure WriterProc where
  pc : Nat
  saved : String

/-- Shared state of two concurrent writers: the sentinel, the log file text,
and both writers' control states. -/
structure TwoWriterState where
  lockHeld : Bool
  log : String
  w1 : WriterProc
  w2 : WriterProc

/-- One atomic step of a writer appending `line`. A writer at pc 0 that sees
the sentinel present stays at pc 0 (it would back off and re-check); every
other step follows the protocol in order. -/
def writerStep (line : String) (lockHeld : Bool) (log : String)
    (p : WriterProc) : Bool × String × WriterProc :=
  match p.pc with
  | 0 => if lockHeld then (lockHeld, log, p) else (lockHeld, log, { p with pc := 1 })
  | 1 => (true, log, { p with pc := 2 })
  | 2 => (lockHeld, log, { pc := 3, saved := log })
  | 3 => (lockHeld, p.saved ++ line, { p with pc := 4 })
  | 4 => (false, log, { p with pc := 5 })
  | _ => (lockHeld, log, p)

/-- Scheduler step: `false` lets writer 1 move, `true` lets writer 2 move. -/
def twoWriterStep (line1 line2 : String) (s : TwoWriterState) (who : Bool) :
    TwoWriterState :=
  if who then
    match writerStep line2 s.lockHeld s.log s.w2 with
    | (lk, lg, p) => { s with lockHeld := lk, log := lg, w2 := p }
  else
    match writerStep line1 s.lockHeld s.log s.w1 with
    | (lk, lg, p) => { s with lockHeld := lk, log := lg, w1 := p }

/-- Run of the two-writer system under a schedule. -/
def twoWriterRun (line1 line2 : String) (sched : List Bool)
    (s : TwoWriterState) : TwoWriterState :=
  sched.foldl (twoWriterStep line1 line2) s

/-- Initial state: no sentinel, empty log, both writers at the `isLocked`
check. -/
def twoWriterInit : TwoWriterState :=
  { lockHeld := false, log := "", w1 := ⟨0, ""⟩, w2 := ⟨0, ""⟩ }

/-- Number of newline-terminated lines in a file text. -/
def lineCount (s : String) : Nat :=
  (s.toList.filter (fun c => c = '\n')).length

/-- Spec-side reading (amended with JavaScript truthiness) of "timestamp lies
in the inclusive range [since, until]": each bound applies when given and
nonzero. -/
def SpecInRange (f : MemoryFilter) (e : EdgeMemoryEntry) : Prop :=
  (match f.since with
   | none => True
   | some s => s = 0 ∨ s ≤ e.ts) ∧
  (match f.«until» with
   | none => True
   | some u => u = 0 ∨ e.ts ≤ u)

/-- Spec-side reading (amended) of "type and source match exactly when given":
the match applies when the given string is nonempty. -/
def SpecTypeSrcMatch (f : MemoryFilter) (e : EdgeMemoryEntry) : Prop :=
  (match f.type with
   | none => True
   | some t => t = "" ∨ e.type = some t) ∧
  (match f.src with
   | none => True
   | some s => s = "" ∨ e.src = s)

/-- Spec-side reading of the tags filter: a nonempty requested list matches
entries having at least one of the requested tags. -/
def SpecTagsMatch (f : MemoryFilter) (e : EdgeMemoryEntry) : Prop :=
  match f.tags with
  | none => True
  | some l => l = [] ∨ ∃ t ∈ l, t ∈ e.tags.getD []

/-- Spec-side filter predicate: conjunction of the range, type/source and tags
requirements. -/
def SpecPass (f : MemoryFilter) (e : EdgeMemoryEntry) : Prop :=
  SpecInRange f e ∧ SpecTypeSrcMatch f e ∧ SpecTagsMatch f e

instance : IsTotal EdgeMemoryEntry tsDesc :=
  ⟨fun a b => by unfold tsDesc; omega⟩

instance : IsTrans EdgeMemoryEntry tsDesc :=
  ⟨fun a b c hab hbc => by unfold tsDesc at *; omega⟩

theorem collect_eq_filter (file : LogFile) (f : MemoryFilter) :
    (file.filterMap fun l =>
      match recoverLine l with
      | some e => if passFilter f e then some e else none
      | none => none) =
    (validEntries file).filter (fun e => passFilter f e) := by
  induction file with
  | nil => rfl
  | cons l rest ih =>
    unfold validEntries at *
    cases hrec : recoverLine l with
    | none => simp [List.filterMap_cons, hrec, ih]
    | some e =>
      by_cases hp : passFilter f e
      · simp [List.filterMap_cons, hrec, hp, ih]
      · simp [List.filterMap_cons, hrec, hp, ih]

theorem read_none_eq (file : LogFile) :
    EdgeMemoryStore.read file none = (validEntries file).insertionSort tsDesc := by
  show (file.filterMap fun l =>
      match recoverLine l with
      | some e => some e
      | none => none).insertionSort tsDesc =
    (validEntries file).insertionSort tsDesc
  congr 1
  unfold validEntries
  induction file with
  | nil => rfl
  | cons l rest ih =>
    cases hrec : recoverLine l <;> simp [List.filterMap_cons, hrec, ih]

theorem mem_validEntries (file : LogFile) (e : EdgeMemoryEntry)
    (h : e ∈ validEntries file) :
    validateEntry e = true ∧ isVersionCompatible e.v PROTOCOL_VERSION = true := by
  unfold validEntries at h
  obtain ⟨l, _, hl⟩ := List.mem_filterMap.mp h
  cases l with
  | bad raw => simp [recoverLine] at hl
  | good e' =>
    unfold recoverLine at hl
    by_cases hv : validateEntry e' && isVersionCompatible e'.v PROTOCOL_VERSION
    · simp [hv] at hl
      subst hl
      simpa using hv
    · simp [hv] at hl

theorem mem_sort_iff (l : List EdgeMemoryEntry) (e : EdgeMemoryEntry) :
    e ∈ l.insertionSort tsDesc ↔ e ∈ l :=
  (List.perm_insertionSort tsDesc l).mem_iff

theorem read_some_no_limit (file : LogFile) (f : MemoryFilter)
    (h : f.limit = none ∨ f.limit = some 0) :
    EdgeMemoryStore.read file (some f) =
      ((validEntries file).filter (fun e => passFilter f e)).insertionSort tsDesc := by
  unfold EdgeMemoryStore.read
  rcases h with h | h <;> simp [h, collect_eq_filter]

theorem read_some_limit (file : LogFile) (f : MemoryFilter) (n : Int)
    (h : f.limit = some n) (hn : n ≠ 0) :
    EdgeMemoryStore.read file (some f) =
      jsSlice0 n (((validEntries file).filter
        (fun e => passFilter f e)).insertionSort tsDesc) := by
  unfold EdgeMemoryStore.read
  simp [h, hn, collect_eq_filter]

theorem read_sorted (file : LogFile) (f : Option MemoryFilter) :
    (EdgeMemoryStore.read file f).Pairwise tsDesc := by
  have hs : ∀ l : List EdgeMemoryEntry,
      (l.insertionSort tsDesc).Pairwise tsDesc :=
    fun l => List.sorted_insertionSort tsDesc l
  have htake : ∀ (k : Nat) (l : List EdgeMemoryEntry),
      l.Pairwise tsDesc → (l.take k).Pairwise tsDesc :=
    fun k l hp => hp.sublist (List.take_sublist k l)
  cases f with
  | none =>
    rw [read_none_eq]
    exact hs _
  | some f =>
    cases hl : f.limit with
    | none =>
      rw [read_some_no_limit file f (Or.inl hl)]
      exact hs _
    | some n =>
      by_cases hn : n = 0
      · rw [read_some_no_limit file f (Or.inr (by rw [hl, hn]))]
        exact hs _
      · rw [read_some_limit file f n hl hn]
        unfold jsSlice0
        split
        · exact htake _ _ (hs _)
        · exact htake _ _ (hs _)

theorem sinceTest_iff (f : MemoryFilter) (e : EdgeMemoryEntry) :
    sinceTest f e = true ↔
      (match f.since with
       | none => True
       | some s => s = 0 ∨ s ≤ e.ts) := by
  unfold sinceTest
  cases f.since with
  | none => simp
  | some s =>
    by_cases h : s = 0
    · simp [h]
    · simp [h]

theorem untilTest_iff (f : MemoryFilter) (e : EdgeMemoryEntry) :
    untilTest f e = true ↔
      (match f.«until» with
       | none => True
       | some u => u = 0 ∨ e.ts ≤ u) := by
  unfold untilTest
  cases f.«until» with
  | none => simp
  | some u =>
    by_cases h : u = 0
    · simp [h]
    · simp [h]

theorem typeTest_iff (f : MemoryFilter) (e : EdgeMemoryEntry) :
    typeTest f e = true ↔
      (match f.type with
       | none => True
       | some t => t = "" ∨ e.type = some t) := by
  unfold typeTest
  cases f.type with
  | none => simp
  | some t =>
    by_cases h : t = ""
    · simp [h]
    · simp [h]

theorem srcTest_iff (f : MemoryFilter) (e : EdgeMemoryEntry) :
    srcTest f e = true ↔
      (match f.src with
       | none => True
       | some s => s = "" ∨ e.src = s) := by
  unfold srcTest
  cases f.src with
  | none => simp
  | some s =>
    by_cases h : s = ""
    · simp [h]
    · simp [h]

theorem tagsTest_iff (f : MemoryFilter) (e : EdgeMemoryEntry) :
    tagsTest f e = true ↔ SpecTagsMatch f e := by
  unfold tagsTest SpecTagsMatch
  cases f.tags with
  | none => simp
  | some l =>
    cases l with
    | nil => simp
    | cons t rest => simp [List.any_eq_true]

theorem passFilter_iff (f : MemoryFilter) (e : EdgeMemoryEntry) :
    passFilter f e = true ↔ SpecPass f e := by
  unfold passFilter SpecPass SpecInRange SpecTypeSrcMatch
  rw [Bool.and_eq_true, Bool.and_eq_true, Bool.and_eq_true, Bool.and_eq_true]
  rw [sinceTest_iff, untilTest_iff, typeTest_iff, srcTest_iff, tagsTest_iff]
  tauto

theorem passFilter_limit_none (f : MemoryFilter) (e : EdgeMemoryEntry) :
    passFilter { f with limit := none } e = passFilter f e := rfl

theorem decodeStrList_map_str (l : List String) :
    decodeStrList (l.map JsonVal.str) = some l := by
  induction l with
  | nil => rfl
  | cons s rest ih => simp [decodeStrList, ih]

theorem decodeNumList_map_num (l : List Int) :
    decodeNumList (l.map JsonVal.num) = some l := by
  induction l with
  | nil => rfl
  | cons n rest ih => simp [decodeNumList, ih]

theorem decodeEntry_encodeEntry (e : EdgeMemoryEntry) :
    decodeEntry (encodeEntry e) = some e := by
  obtain ⟨v, id, ts, src, content, type, tags, meta, emb⟩ := e
  cases type <;> cases tags <;> cases meta <;> cases emb <;>
    simp [encodeEntry, decodeEntry, jlookup,
      decodeStrList_map_str, decodeNumList_map_num]

theorem decodeEntryList_map_encode (es : List EdgeMemoryEntry) :
    decodeEntryList (es.map encodeEntry) = some es := by
  induction es with
  | nil => rfl
  | cons e rest ih => simp [decodeEntryList, decodeEntry_encodeEntry, ih]

theorem renderEntries_append (es : List EdgeMemoryEntry) (e : EdgeMemoryEntry) :
    renderEntries (es ++ [e]) = renderEntries es ++ (entryLine e ++ "\n") := by
  induction es with
  | nil => simp [renderEntries]
  | cons x rest ih => simp [renderEntries, ih, String.append_assoc]

theorem deleteContentStr_eq_render (es : List EdgeMemoryEntry) :
    deleteContentStr es = renderEntries es := by
  induction es with
  | nil => rfl
  | cons e rest ih =>
    cases rest with
    | nil => simp [deleteContentStr, jsJoinSep, renderEntries]
    | cons f rest' =>
      have ih' : jsJoinSep "\n" ((f :: rest').map entryLine) ++ "\n" =
          renderEntries (f :: rest') := by
        simpa [deleteContentStr] using ih
      calc deleteContentStr (e :: f :: rest')
          = (entryLine e ++ "\n" ++ jsJoinSep "\n" ((f :: rest').map entryLine))
              ++ "\n" := by
            simp [deleteContentStr, jsJoinSep]
        _ = entryLine e ++ "\n" ++
              (jsJoinSep "\n" ((f :: rest').map entryLine) ++ "\n") := by
            simp [String.append_assoc]
        _ = entryLine e ++ "\n" ++ renderEntries (f :: rest') := by rw [ih']
        _ = renderEntries (e :: f :: rest') := rfl

/-- Entry stored before the `update` call of the C1 scenario. -/
def c1Target : EdgeMemoryEntry :=
  { v := "1.0", id := "00000000-0000-4000-8000-000000000000", ts := 100,
    src := "com.example.app", content := "hello" }

/-- Outcome of `update("00000000-0000-4000-8000-000000000000", {})` on a log
holding exactly `c1Target`, with `generateUUID()` returning
`"aaaaaaaa-aaaa-4aaa-8aaa-aaaaaaaaaaaa"` and `Date.now() = 200`. -/
def c1Out : WriteOutcome :=
  EdgeMemoryStore.update ⟨"com.example.app", 5000⟩
    "aaaaaaaa-aaaa-4aaa-8aaa-aaaaaaaaaaaa" 200 [200]
    [.good c1Target] none "00000000-0000-4000-8000-000000000000" {}

/-- The entry that `update` actually appends in the C1 scenario: it carries
the freshly generated UUID, not the id of the entry being updated. -/
def c1Appended : EdgeMemoryEntry :=
  { v := "1.0", id := "aaaaaaaa-aaaa-4aaa-8aaa-aaaaaaaaaaaa", ts := 200,
    src := "com.example.app", content := "hello" }

/-- C1: the claim says `update(X, changes)` appends a new entry sharing the id
`X`. On the code, `update` succeeds and appends a new revision with a fresh
timestamp while leaving the old one in the log — but `write` builds the entry
with `id: generateUUID()` (`MemoryStore.ts` line 126), ignoring the id carried
by the merged input, so the appended entry bears the freshly generated UUID,
not `X`. This contradicts the code's own comments ("creates new entry with
same ID", "Write new entry (same ID, newer timestamp)",
`MemoryStore.ts` lines 260 and 278). -/
theorem update_appends_fresh_uuid_not_target_id :
    c1Out.result = .ok c1Appended ∧
    c1Out.file = [.good c1Target, .good c1Appended] ∧
    c1Appended.id ≠ c1Target.id :=
  ⟨rfl, rfl, by decide⟩

/-- C2: a sentinel whose recorded epoch is more than `2 × lockTimeout` old at
the time of the next `acquire` is deleted by the staleness check inside
`isLocked`, and that `acquire` succeeds on its first loop iteration — zero
backoff sleeps, no `LockTimeout` — installing a fresh sentinel. The event
trace shows the reclaim: existence check, read, delete of the stale sentinel,
then the new sentinel write. -/
theorem acquire_reclaims_stale_sentinel (timeout startNow t : Int)
    (rest : List Int) (hstale : startNow - t > timeout * 2) :
    FileLockManager.acquire timeout (startNow :: rest) (some (some t)) =
      (.acquired (some (some startNow)) 0,
       [.lockExistsCheck, .lockRead, .lockDelete, .lockWrite]) := by
  simp only [FileLockManager.acquire, FileLockManager.acquireGo,
    FileLockManager.isLocked]
  by_cases h0 : t = 0
  · simp [h0]
  · simp [h0, hstale]

/-- Witness for C2, the scenario of the spec: a sentinel created at epoch
2000, `lockTimeout = 1000`, the next `acquire` at `now = 5000` (age 3000 ms >
2000 ms). -/
theorem acquire_reclaims_stale_sentinel_witness :
    (5000 : Int) - 2000 > 1000 * 2 ∧
    FileLockManager.acquire 1000 [5000] (some (some 2000)) =
      (.acquired (some (some 5000)) 0,
       [.lockExistsCheck, .lockRead, .lockDelete, .lockWrite]) :=
  ⟨by decide, acquire_reclaims_stale_sentinel 1000 5000 2000 [] (by decide)⟩

/-- C3: when no recovered entry of the log carries the requested id, `delete`
fails with `NotFound` and returns the log exactly as it was — including its
unparseable lines, order and duplicates — because the rewrite only happens on
the branch where something matched. -/
theorem delete_absent_id_leaves_file_unchanged (file : LogFile) (id : String)
    (h : ∀ e ∈ EdgeMemoryStore.read file none, e.id ≠ id) :
    EdgeMemoryStore.delete file id = (file, some .notFound) := by
  unfold EdgeMemoryStore.delete
  have hf : (EdgeMemoryStore.read file none).filter (fun e => !(e.id == id)) =
      EdgeMemoryStore.read file none :=
    List.filter_eq_self.mpr (fun e he => by simpa using h e he)
  simp [hf]

/-- Log for the C3 witness: one valid entry and one undecodable line. -/
def c3File : LogFile :=
  [.good { v := "1.0", id := "550e8400-e29b-41d4-a716-446655440000", ts := 100,
           src := "com.example.app", content := "hello" },
   .bad "not json"]

/-- Witness for C3: deleting an id that matches nothing in `c3File`. -/
theorem delete_absent_id_leaves_file_unchanged_witness :
    EdgeMemoryStore.delete c3File "123e4567-e89b-42d3-a456-426614174000" =
      (c3File, some .notFound) :=
  delete_absent_id_leaves_file_unchanged c3File
    "123e4567-e89b-42d3-a456-426614174000" (by decide)

/-- Final state of the C4 interleaving: writers 1 and 2 appending the lines
`"one\n"` and `"two\n"`, scheduled alternately through the five protocol
steps. -/
def c4Final : TwoWriterState :=
  twoWriterRun "one\n" "two\n"
    [false, true, false, true, false, true, false, true, false, true]
    twoWriterInit

/-- C4: the claim says two concurrent callers that both follow the lock
protocol never interleave their appends, so after `N` successful writes the
log ends with exactly `N` well-formed lines. The protocol as implemented
cannot deliver this: `acquire` checks `isLocked` and then creates the sentinel
in two separate filesystem operations, and the sentinel write is a plain
overwrite (the adapter's `writeFile` never fails on an existing file, so the
catch branch the code relies on cannot fire), while the adapter implements
append as read-then-write. In the exhibited schedule both writers pass the
`isLocked` check before either creates the sentinel, both writers' `write`
calls return success (pc 5), and writer 2's rewrite clobbers writer 1's line:
after 2 successful writes the log holds exactly 1 line. -/
theorem lock_protocol_loses_append_under_interleaving :
    c4Final.w1.pc = 5 ∧ c4Final.w2.pc = 5 ∧ c4Final.log = "two\n" ∧
    lineCount c4Final.log = 1 :=
  ⟨rfl, rfl, rfl, rfl⟩

/-- Entry of the C5 counterexample: timestamp 1, type `"a"`. -/
def c5Entry : EdgeMemoryEntry :=
  { v := "1.0", id := "550e8400-e29b-41d4-a716-446655440000", ts := 1,
    src := "com.example.app", content := "x", type := some "a" }

/-- Filter of the C5 counterexample: every field given but JavaScript-falsy
(`until = 0`, `type = ""`, `src = ""`, `limit = 0`). -/
def c5Filter : MemoryFilter :=
  { «until» := some 0, type := some "", src := some "", limit := some 0 }

/-- C5 counterexample: the claim as stated predicts the empty result here —
the entry's timestamp 1 lies outside the inclusive range `(-∞, 0]` of the
given `until = 0`, its type `"a"` differs from the given `type = ""`, and the
given `limit = 0` truncates to nothing. The code instead returns the entry:
the falsy guards `filter.until`, `filter.type`, `filter.src` and
`filter.limit` skip all four tests. -/
theorem read_keeps_entry_outside_falsy_filter_bounds :
    EdgeMemoryStore.read [.good c5Entry] (some c5Filter) = [c5Entry] ∧
    c5Filter.«until» = some 0 ∧ c5Entry.ts = 1 ∧
    c5Filter.type = some "" ∧ c5Entry.type = some "a" ∧
    c5Filter.limit = some 0 :=
  ⟨rfl, rfl, rfl, rfl, rfl, rfl⟩

/-- C5 (amended): `read(filter)` keeps exactly the validated,
version-compatible entries that pass the given predicates with each given
value applying only when JavaScript-truthy (nonzero `since`/`until` bounds,
inclusive; nonempty `type`/`src` exact matches; nonempty tag lists), returns
them sorted by timestamp descending, and truncates to the first `limit`
entries when a positive `limit` is given (a zero limit is ignored). -/
theorem read_filter_truthy_characterization (file : LogFile)
    (f : MemoryFilter) :
    ((f.limit = none ∨ f.limit = some 0) → ∀ e : EdgeMemoryEntry,
      (e ∈ EdgeMemoryStore.read file (some f) ↔
        e ∈ validEntries file ∧ SpecPass f e)) ∧
    (EdgeMemoryStore.read file (some f)).Pairwise tsDesc ∧
    (∀ n : Int, f.limit = some n → 0 < n →
      EdgeMemoryStore.read file (some f) =
        (EdgeMemoryStore.read file
          (some { f with limit := none })).take n.toNat) := by
  refine ⟨?_, read_sorted file (some f), ?_⟩
  · intro hl e
    rw [read_some_no_limit file f hl, mem_sort_iff, List.mem_filter,
      passFilter_iff]
  · intro n hn hpos
    rw [read_some_limit file f n hn (by omega),
      read_some_no_limit file { f with limit := none } (Or.inl rfl)]
    unfold jsSlice0
    rw [if_neg (by omega)]
    rfl

/-- Older and newer entries for the C5 witness log. -/
def c5wOld : EdgeMemoryEntry :=
  { v := "1.0", id := "550e8400-e29b-41d4-a716-446655440000", ts := 5,
    src := "com.example.app", content := "a" }

def c5wNew : EdgeMemoryEntry :=
  { v := "1.0", id := "123e4567-e89b-42d3-a456-426614174000", ts := 10,
    src := "com.example.app", content := "b" }

def c5wFile : LogFile := [.good c5wOld, .good c5wNew]

/-- Witness for C5 (amended), instantiating both guarded parts: the entry
with timestamp 10 passes `since = 6`, and a positive `limit = 1` truncates
the no-limit result. -/
theorem read_filter_truthy_characterization_witness :
    c5wNew ∈ EdgeMemoryStore.read c5wFile (some { since := some 6 }) ∧
    EdgeMemoryStore.read c5wFile (some { since := some 6, limit := some 1 }) =
      (EdgeMemoryStore.read c5wFile
        (some { since := some 6, limit := none })).take 1 :=
  ⟨((read_filter_truthy_characterization c5wFile
        { since := some 6 }).1 (Or.inl rfl) c5wNew).mpr
      ⟨List.mem_cons.mpr (Or.inr (List.mem_cons.mpr (Or.inl rfl))),
       ⟨Or.inr (by decide), trivial⟩, ⟨trivial, trivial⟩, trivial⟩,
   (read_filter_truthy_characterization c5wFile
      { since := some 6, limit := some 1 }).2.2 1 rfl (by decide)⟩

/-- C6: with a nonempty requested tag list, `read` returns exactly the
validated, version-compatible entries having at least one of the requested
tags; entries carrying no `tags` field never match. -/
theorem read_tags_filter_exact (file : LogFile) (l : List String)
    (hl : l ≠ []) :
    (∀ e : EdgeMemoryEntry,
      e ∈ EdgeMemoryStore.read file (some { tags := some l }) ↔
        e ∈ validEntries file ∧ ∃ t ∈ l, t ∈ e.tags.getD []) ∧
    (∀ e : EdgeMemoryEntry,
      e ∈ EdgeMemoryStore.read file (some { tags := some l }) →
        e.tags ≠ none) := by
  have hmem : ∀ e : EdgeMemoryEntry,
      e ∈ EdgeMemoryStore.read file (some { tags := some l }) ↔
        e ∈ validEntries file ∧ SpecPass { tags := some l } e := by
    intro e
    rw [read_some_no_limit file { tags := some l } (Or.inl rfl), mem_sort_iff,
      List.mem_filter, passFilter_iff]
  constructor
  · intro e
    rw [hmem e]
    constructor
    · rintro ⟨hv, -, -, htags⟩
      rcases htags with h0 | ht
      · exact absurd h0 hl
      · exact ⟨hv, ht⟩
    · rintro ⟨hv, ht⟩
      exact ⟨hv, ⟨trivial, trivial⟩, ⟨trivial, trivial⟩, Or.inr ht⟩
  · intro e he
    rw [hmem e] at he
    rcases he with ⟨-, -, -, htags⟩
    rcases htags with h0 | ⟨t, -, hte⟩
    · exact absurd h0 hl
    · intro hnone
      rw [hnone] at hte
      simp at hte

/-- Tagged entry for the C6 witness. -/
def c6Tagged : EdgeMemoryEntry :=
  { v := "1.0", id := "550e8400-e29b-41d4-a716-446655440000", ts := 1,
    src := "com.example.app", content := "a", tags := some ["x", "y"] }

/-- Untagged entry for the C6 witness. -/
def c6Untagged : EdgeMemoryEntry :=
  { v := "1.0", id := "123e4567-e89b-42d3-a456-426614174000", ts := 2,
    src := "com.example.app", content := "b" }

def c6File : LogFile := [.good c6Tagged, .good c6Untagged]

/-- Witness for C6: on a log with one `"x"`-tagged and one untagged entry,
`read({tags:["x"]})` contains the tagged one. -/
theorem read_tags_filter_exact_witness :
    c6Tagged ∈ EdgeMemoryStore.read c6File (some { tags := some ["x"] }) ∧
    (["x"] : List String) ≠ [] :=
  ⟨((read_tags_filter_exact c6File ["x"] (by decide)).1 c6Tagged).mpr
      ⟨List.mem_cons.mpr (Or.inl rfl),
       ⟨"x", List.mem_cons.mpr (Or.inl rfl), by decide⟩⟩,
   by decide⟩

/-- C7: when the built entry fails validation, `write` fails with
`ValidationError` before performing any file operation — the event trace is
empty, so the log file (and even the sentinel) is untouched; and when the
built entry is valid but the lock loop times out, `write` surfaces
`LockTimeout`, again leaving the log unchanged (only sentinel probes
happened). -/
theorem write_validation_and_lock_failures (cfg : EdgeMemoryConfig)
    (genId : String) (now : Int) (times : List Int)
    (input : CreateMemoryInput) (file : LogFile) (lockSt : LockSt) :
    (validateEntry (buildEntry cfg genId now input) = false →
      EdgeMemoryStore.write cfg genId now times input file lockSt =
        { result := .error .validation, file := file, lock := lockSt,
          events := [] }) ∧
    (∀ (st : LockSt) (sleeps : Nat) (tr : List IoEvent),
      validateEntry (buildEntry cfg genId now input) = true →
      FileLockManager.acquire cfg.lockTimeout times lockSt =
        (.timedOut st sleeps, tr) →
      EdgeMemoryStore.write cfg genId now times input file lockSt =
        { result := .error .lockTimeout, file := file, lock := st,
          events := tr }) := by
  constructor
  · intro hbad
    unfold EdgeMemoryStore.write
    simp [hbad]
  · intro st sleeps tr hok hacq
    unfold EdgeMemoryStore.write
    simp [hok, hacq]

/-- Configuration of the C7 witness: `lockTimeout = 1000`. -/
def c7Cfg : EdgeMemoryConfig := { appId := "com.example.app", lockTimeout := 1000 }

/-- Witness for C7. Left part: empty content fails validation, nothing is
touched. Right part: the sentinel is held (epoch 100, not stale), the second
loop iteration at time 1200 exceeds the 1000 ms timeout, and the trace shows
only the two sentinel probes. -/
theorem write_validation_and_lock_failures_witness :
    EdgeMemoryStore.write c7Cfg "550e8400-e29b-41d4-a716-446655440000" 150
        [150, 1200] { content := "" } [] (some (some 100)) =
      { result := .error .validation, file := [], lock := some (some 100),
        events := [] } ∧
    EdgeMemoryStore.write c7Cfg "550e8400-e29b-41d4-a716-446655440000" 150
        [150, 1200] { content := "hi" } [] (some (some 100)) =
      { result := .error .lockTimeout, file := [], lock := some (some 100),
        events := [.lockExistsCheck, .lockRead, .lockExistsCheck,
          .lockRead] } :=
  ⟨(write_validation_and_lock_failures c7Cfg
      "550e8400-e29b-41d4-a716-446655440000" 150 [150, 1200]
      { content := "" } [] (some (some 100))).1 (by decide),
   (write_validation_and_lock_failures c7Cfg
      "550e8400-e29b-41d4-a716-446655440000" 150 [150, 1200]
      { content := "hi" } [] (some (some 100))).2 (some (some 100)) 1
      [.lockExistsCheck, .lockRead, .lockExistsCheck, .lockRead]
      (by decide) rfl⟩

/-- C8: re-parsing the JSON document produced by `export()` yields exactly
the entry list `read()` returns with no filter — every field of every entry
survives the round trip. -/
theorem export_read_roundtrip (file : LogFile) :
    decodeEntries (EdgeMemoryStore.exportJson file) =
      some (EdgeMemoryStore.read file none) := by
  unfold EdgeMemoryStore.exportJson decodeEntries
  exact decodeEntryList_map_encode _

/-- C9: every log-modifying operation preserves the file-format invariant
"empty, or serialized entries one per line with a single final newline and no
other trailing data": `write` appends one full line to a well-formed file,
`delete` rewrites well-formed content whatever remains, and `clear` writes
the empty file. -/
theorem log_format_invariant_preserved (s : String) (e : EdgeMemoryEntry) :
    (WellFormedLog s → WellFormedLog (writeAppendStr s e)) ∧
    (∀ filtered : List EdgeMemoryEntry,
      WellFormedLog (deleteContentStr filtered)) ∧
    WellFormedLog clearContentStr := by
  refine ⟨?_, ?_, ⟨[], rfl⟩⟩
  · rintro ⟨es, rfl⟩
    refine ⟨es ++ [e], ?_⟩
    rw [renderEntries_append]
    exact String.append_assoc _ _ _
  · intro filtered
    exact ⟨filtered, deleteContentStr_eq_render filtered⟩

/-- Entry appended in the C9 witness. -/
def c9Entry : EdgeMemoryEntry :=
  { v := "1.0", id := "550e8400-e29b-41d4-a716-446655440000", ts := 1,
    src := "com.example.app", content := "hello" }

/-- Witness for C9: appending to the (well-formed) empty file yields a
well-formed file. -/
theorem log_format_invariant_preserved_witness :
    WellFormedLog (writeAppendStr "" c9Entry) :=
  (log_format_invariant_preserved "" c9Entry).1 ⟨[], rfl⟩

/-- C10: when some entry matches, `delete` does not splice the surviving
lines out of the original file text: it rewrites the file from `read()`'s
recovered view. The written lines are exactly the recovered entries with the
id filtered out — every line parseable and version-compatible, so
unparseable or invalid lines and incompatible entries are silently dropped —
and they appear in timestamp-descending order, not in original append
order. -/
theorem delete_rewrites_sorted_recovered_view (file : LogFile) (id : String)
    (h : ∃ e ∈ EdgeMemoryStore.read file none, e.id = id) :
    EdgeMemoryStore.delete file id =
      (((EdgeMemoryStore.read file none).filter
          (fun e => !(e.id == id))).map LogLine.good, none) ∧
    ((EdgeMemoryStore.read file none).filter
        (fun e => !(e.id == id))).Pairwise tsDesc ∧
    (∀ e ∈ (EdgeMemoryStore.read file none).filter (fun e => !(e.id == id)),
      validateEntry e = true ∧
        isVersionCompatible e.v PROTOCOL_VERSION = true) := by
  obtain ⟨x, hx, hxid⟩ := h
  have hne : ((EdgeMemoryStore.read file none).filter
      (fun e => !(e.id == id))).length ≠
      (EdgeMemoryStore.read file none).length := by
    intro heq
    have hall := List.filter_length_eq_length.mp heq x hx
    rw [hxid] at hall
    simp at hall
  refine ⟨?_, ?_, ?_⟩
  · unfold EdgeMemoryStore.delete
    simp [hne]
  · exact (read_sorted file none).sublist (List.filter_sublist _)
  · intro e he
    have hmem := (List.mem_filter.mp he).1
    rw [read_none_eq] at hmem
    exact mem_validEntries file e ((mem_sort_iff _ e).mp hmem)

/-- Entries of the C10 witness log: appended in the order A (ts 1), D (ts 3),
B (ts 2), preceded by an unparseable line. -/
def c10A : EdgeMemoryEntry :=
  { v := "1.0", id := "550e8400-e29b-41d4-a716-446655440000", ts := 1,
    src := "com.example.app", content := "a" }

def c10Del : EdgeMemoryEntry :=
  { v := "1.0", id := "123e4567-e89b-42d3-a456-426614174000", ts := 3,
    src := "com.example.app", content := "d" }

def c10B : EdgeMemoryEntry :=
  { v := "1.0", id := "aaaaaaaa-aaaa-4aaa-8aaa-aaaaaaaaaaaa", ts := 2,
    src := "com.example.app", content := "b" }

def c10File : LogFile := [.bad "garbage", .good c10A, .good c10Del, .good c10B]

/-- Witness for C10: deleting D from the witness log drops the unparseable
line and rewrites the survivors in timestamp-descending order B (ts 2),
A (ts 1) — not their append order A, B. -/
theorem delete_rewrites_sorted_recovered_view_witness :
    EdgeMemoryStore.delete c10File "123e4567-e89b-42d3-a456-426614174000" =
      (((EdgeMemoryStore.read c10File none).filter
        (fun e => !(e.id == "123e4567-e89b-42d3-a456-426614174000"))).map
          LogLine.good, none) ∧
    EdgeMemoryStore.delete c10File "123e4567-e89b-42d3-a456-426614174000" =
      ([.good c10B, .good c10A], none) :=
  ⟨(delete_rewrites_sorted_recovered_view c10File
      "123e4567-e89b-42d3-a456-426614174000"
      ⟨c10Del, by
        rw [show EdgeMemoryStore.read c10File none = [c10Del, c10B, c10A]
          from rfl]
        exact List.mem_cons.mpr (Or.inl rfl), rfl⟩).1,
   rfl⟩
